import Mathlib

/-!
Verification development for the `plot_electro_chem` repository: shallow
embeddings of the four plotting scripts (`plot_ca.py`, `plot_ca_j.py`,
`plot_eis.py`, `plot_lsv.py`) and theorems settling the frozen claims
about filename parsing, column normalisation, delimiters, error handling,
grouping and ordering behaviour.
-/

namespace PlotElectroChem

/-! ## Generic character / string helpers (Python semantics) -/

/-- Python whitespace class for the default `str.strip` and for the regex
class matched in these filenames (space, tab, LF, CR, VT, FF). -/
def pyIsSpace (c : Char) : Bool :=
  c == ' ' || c == '\t' || c == '\n' || c == '\r' ||
  c == Char.ofNat 11 || c == Char.ofNat 12

/-- `startsWithL pat s` : `pat` is a prefix of `s` (character lists). -/
def startsWithL : List Char → List Char → Bool
  | [], _ => true
  | _ :: _, [] => false
  | p :: ps, c :: cs => p == c && startsWithL ps cs

/-- Python substring containment test `pat in s` on character lists. -/
def containsL (pat : List Char) : List Char → Bool
  | [] => startsWithL pat []
  | c :: cs => startsWithL pat (c :: cs) || containsL pat cs

/-- Python `str.strip()` with no argument: drop leading and trailing
whitespace characters. -/
def pyStrip (l : List Char) : List Char :=
  ((l.dropWhile pyIsSpace).reverse.dropWhile pyIsSpace).reverse

/-- `os.path.basename` on a POSIX path: the part after the last slash. -/
def basename (p : List Char) : List Char :=
  (p.foldl (fun acc c => if c = '/' then [] else acc ++ [c]) [])

/-- `os.path.join` for a directory and a relative filename (POSIX). -/
def pathJoin (dir name : List Char) : List Char :=
  if dir = [] then name
  else if dir.getLast? = some '/' then dir ++ name
  else dir ++ '/' :: name

/-- Python `str.endswith(".txt")` specialised as used by the scripts. -/
def endsWithTxt (s : List Char) : Bool :=
  startsWithL ['.', 't', 'x', 't'] (s.drop (s.length - 4)) && 4 ≤ s.length

/-- Lexicographic code-point comparison of character lists: the order
Python `sorted` uses on these filenames. -/
def charListLe : List Char → List Char → Bool
  | [], _ => true
  | _ :: _, [] => false
  | a :: as, b :: bs =>
    if a < b then true else if b < a then false else charListLe as bs

/-- Python string comparison `a <= b` (by code points). -/
def pyLe (a b : String) : Prop := charListLe a.toList b.toList = true

instance : DecidableRel pyLe := fun a b =>
  inferInstanceAs (Decidable (charListLe a.toList b.toList = true))

/-! ## C2 : time normalisation in the chronoamperometry scripts

`plot_ca.py` lines 69-75 first subtracts the initial time from the
`Time (s)` column and then divides by 60 into a new `Time (min)` column;
`plot_ca_j.py` lines 66 and 83 do both steps in one expression.  Column
arithmetic is embedded over exact rationals. -/

/-- `plot_ca.py` : `data[t] = data[t] - data[t].iloc[0]` followed by
`data[Time (min)] = data[t] / 60`, for a non-empty column with first
element `t0`. -/
def timeMinutes_ca (ts : List ℚ) : List ℚ :=
  let t0 := ts.headD 0
  (ts.map (fun t => t - t0)).map (fun t => t / 60)

/-- `plot_ca_j.py` : `(data[t] - data[t].iloc[0]) / 60` in one step. -/
def timeMinutes_caj (ts : List ℚ) : List ℚ :=
  let t0 := ts.headD 0
  ts.map (fun t => (t - t0) / 60)

/-! ## C3 : current density computation -/

namespace plot_ca_j

/-- `plot_ca_j.py` line 10. -/
def ELECTRODE_AREA_CM2 : ℚ := 1

/-- `plot_ca_j.py` line 67: current density column of the Cu reference,
`(data_ref[WE(1).Current (A)] * 1000) / ELECTRODE_AREA_CM2`. -/
def jColumn_ref (current : List ℚ) : List ℚ :=
  current.map (fun x => x * 1000 / ELECTRODE_AREA_CM2)

/-- `plot_ca_j.py` line 84: current density column of a sample file. -/
def jColumn (current : List ℚ) : List ℚ :=
  current.map (fun x => x * 1000 / ELECTRODE_AREA_CM2)

end plot_ca_j

namespace plot_lsv

/-- `plot_lsv.py` line 8. -/
def ELECTRODE_AREA_CM2 : ℚ := 1

/-- `plot_lsv.py` line 39: `(df_ref[WE(1).Current (A)] * 1000) / ELECTRODE_AREA_CM2`. -/
def jColumn_ref (current : List ℚ) : List ℚ :=
  current.map (fun x => x * 1000 / ELECTRODE_AREA_CM2)

/-- `plot_lsv.py` line 64: same formula for each chemical file. -/
def jColumn (current : List ℚ) : List ℚ :=
  current.map (fun x => x * 1000 / ELECTRODE_AREA_CM2)

end plot_lsv

/-! ## C4 : delimiters of every `read_csv` call in the repository -/

/-- The four scripts. -/
inductive Script
  | ca | caJ | lsv | eis
  deriving DecidableEq, Repr

/-- One `pd.read_csv` call site: which script it is in, the source line,
and the delimiter passed (`sep=` or `delimiter=`). -/
structure ReadCall where
  script : Script
  line : Nat
  sep : String
  deriving DecidableEq, Repr

/-- Every `pd.read_csv` call in the repository:
`plot_ca.py` line 64, `plot_ca_j.py` lines 64 and 80,
`plot_lsv.py` lines 38 and 63, `plot_eis.py` lines 101, 103 and 104. -/
def readCalls : List ReadCall :=
  [⟨Script.ca, 64, "\t"⟩,
   ⟨Script.caJ, 64, "\t"⟩, ⟨Script.caJ, 80, "\t"⟩,
   ⟨Script.lsv, 38, "\t"⟩, ⟨Script.lsv, 63, "\t"⟩,
   ⟨Script.eis, 101, ";"⟩, ⟨Script.eis, 103, ";"⟩, ⟨Script.eis, 104, ";"⟩]

/-! ## C1 : `parse_filename` in `plot_eis.py`

The compiled pattern (lines 22-28) is
`(\d+)_(.+?)\s(?:(pH\s\d+)\s)?(OCP|CAP|FAR)\s\((Nyquist|Bode|Nyquist and Bode)\)`
applied with `re.match` (anchored at the start, not at the end).  The
functions below reproduce the Python backtracking engine on this pattern:
the non-greedy `(.+?)` tries the shortest chemical field first, the
optional pH group is tried before being skipped, and the alternations are
tried left to right with the following literal required to match. -/

/-- The plot-type alternation `(Nyquist|Bode|Nyquist and Bode)` followed by
the literal `\)`: alternatives are tried in order, and an alternative is
kept only when the closing parenthesis follows it. -/
def plotTypeAlt (s : List Char) : Option String :=
  if startsWithL "Nyquist)".toList s then some "Nyquist"
  else if startsWithL "Bode)".toList s then some "Bode"
  else if startsWithL "Nyquist and Bode)".toList s then some "Nyquist and Bode"
  else none

/-- After the condition group: `\s\(` then the plot-type alternation. -/
def condTail (s : List Char) : Option String :=
  match s with
  | w :: '(' :: r2 => if pyIsSpace w then plotTypeAlt r2 else none
  | _ => none

/-- One alternative of `(OCP|CAP|FAR)`: the literal, then the tail. -/
def condBranch (cond : String) (s : List Char) : Option (String × String) :=
  if startsWithL cond.toList s then
    (condTail (s.drop cond.length)).map (fun pt => (cond, pt))
  else none

/-- The condition alternation, alternatives tried in order. -/
def condAlt (s : List Char) : Option (String × String) :=
  (condBranch "OCP" s).orElse fun _ =>
    (condBranch "CAP" s).orElse fun _ => condBranch "FAR" s

/-- The branch where the optional group `(?:(pH\s\d+)\s)?` participates:
literal `pH`, one whitespace, a maximal digit run, one more whitespace,
then the condition and tail.  The captured group is `pH<ws><digits>`. -/
def phBranch (s : List Char) : Option (String × String × String) :=
  match s with
  | 'p' :: 'H' :: w :: rest =>
    if pyIsSpace w then
      let d := rest.takeWhile Char.isDigit
      if d.isEmpty then none
      else
        match rest.dropWhile Char.isDigit with
        | w2 :: r2 =>
          if pyIsSpace w2 then
            (condAlt r2).map (fun cp => (('p' :: 'H' :: w :: d).asString, cp.1, cp.2))
          else none
        | [] => none
    else none
  | _ => none

/-- The optional pH group: the participating branch is preferred, skipping
the group is the fallback, exactly as the engine backtracks. -/
def optPH (s : List Char) : Option (Option String × String × String) :=
  match phBranch s with
  | some (ph, c, pt) => some (some ph, c, pt)
  | none => (condAlt s).map (fun cp => (none, cp.1, cp.2))

/-- The non-greedy `(.+?)\s` followed by the rest of the pattern: chemical
candidates are tried shortest first (`acc` is the part already committed),
`.` matches everything except a newline, and on failure the candidate is
extended by one character. -/
def chemLoop (acc : List Char) : List Char → Option (String × Option String × String × String)
  | [] => none
  | c :: rest =>
    if c = '\n' then none
    else
      match rest with
      | [] => none
      | w :: r2 =>
        if pyIsSpace w then
          match optPH r2 with
          | some (ph, cond, pt) => some ((acc ++ [c]).asString, ph, cond, pt)
          | none => chemLoop (acc ++ [c]) rest
        else chemLoop (acc ++ [c]) rest

/-- The groups of the anchored pattern match on a filename. -/
structure EISMatch where
  idx : String
  chem : String
  ph : Option String
  cond : String
  ptype : String
  deriving DecidableEq, Repr

/-- `pattern.match(filename)`: the greedy `(\d+)` takes the maximal digit
run (backtracking cannot help, since `_` is not a digit), then `_`, then
the rest of the pattern. -/
def patternMatch (filename : List Char) : Option EISMatch :=
  let d := filename.takeWhile Char.isDigit
  if d.isEmpty then none
  else
    match filename.dropWhile Char.isDigit with
    | '_' :: rest =>
      (chemLoop [] rest).map (fun r => ⟨d.asString, r.1, r.2.1, r.2.2.1, r.2.2.2⟩)
    | _ => none

/-- `re.search(r"(OCP|CAP|FAR)", filename)`: leftmost occurrence,
alternatives tried in order at each position. -/
def searchCond : List Char → Option String
  | [] => none
  | c :: cs =>
    if startsWithL "OCP".toList (c :: cs) then some "OCP"
    else if startsWithL "CAP".toList (c :: cs) then some "CAP"
    else if startsWithL "FAR".toList (c :: cs) then some "FAR"
    else searchCond cs

/-- The dictionary returned by `parse_filename`. -/
structure ParsedInfo where
  id : String
  chemical : String
  ph : String
  condition : String
  deriving DecidableEq, Repr

/-- The `KReO4 + Na2SO4` special case of `parse_filename` (lines 52-61),
reached when the main pattern fails and the Cu case does not return. -/
def kreCase (filename : List Char) : Option ParsedInfo :=
  if containsL "KReO4 + Na2SO4".toList filename then
    match searchCond filename with
    | some c =>
      some { id := "KReO4 + Na2SO4_" ++ c, chemical := "KReO4 + Na2SO4",
             ph := "N/A", condition := c }
    | none => none
  else none

/-- `parse_filename` (`plot_eis.py` lines 9-63): the main regex first; on
failure, the Cu special case (substring test plus condition search); on
failure, the `KReO4 + Na2SO4` special case; otherwise `None`.  A
non-participating pH group renders as `None` inside the Python f-string
for `id` and becomes `N/A` in the `ph` field. -/
def parse_filename (filepath : String) : Option ParsedInfo :=
  let filename := basename filepath.toList
  match patternMatch filename with
  | some m =>
    some { id := m.idx ++ "_" ++ m.chem ++ " " ++
             (match m.ph with | some p => p | none => "None") ++ " " ++ m.cond,
           chemical := (pyStrip m.chem.toList).asString,
           ph := match m.ph with | some p => p | none => "N/A",
           condition := m.cond }
  | none =>
    if containsL "Cu".toList filename then
      match searchCond filename with
      | some c =>
        some { id := "Cu_" ++ c, chemical := "Cu", ph := "N/A", condition := c }
      | none => kreCase filename
    else kreCase filename

/-! ## The two chronoamperometry scripts : shared data model -/

/-- A loaded data file: column names and the numeric columns the CA
scripts use.  `timeS` is the `Time (s)` column, `charge` the
`WE(1).Charge (C)` column, `current` the `WE(1).Current (A)` column. -/
structure Frame where
  cols : List String
  timeS : List ℚ
  charge : List ℚ
  current : List ℚ
  deriving DecidableEq

/-- String-level wrappers for the character-list helpers. -/
def containsS (pat s : String) : Bool := containsL pat.toList s.toList

/-- `os.path.join` on strings. -/
def pathJoinS (dir name : String) : String := (pathJoin dir.toList name.toList).asString

/-! ## `plot_ca.py` : labelling (lines 46-60) -/

/-- `re.search(r"pH(\d+)", filename)`: leftmost occurrence of `pH`
followed by at least one digit; the group is the maximal digit run. -/
def searchPHdigits : List Char → Option (List Char)
  | [] => none
  | c :: rest =>
    if c = 'p' then
      match rest with
      | 'H' :: r2 =>
        let d := r2.takeWhile Char.isDigit
        if d.isEmpty then searchPHdigits rest else some d
      | _ => searchPHdigits rest
    else searchPHdigits rest

/-- All ways to split a string as `g ++ ".txt" ++ _` with `g` free of
newlines, `g` listed in increasing length: the candidate matches of the
greedy `(.*)\.txt`. -/
def dotTxtSplits (acc : List Char) : List Char → List (List Char)
  | [] => []
  | c :: rest =>
    (if startsWithL ".txt".toList (c :: rest) then [acc] else []) ++
      (if c = '\n' then [] else dotTxtSplits (acc ++ [c]) rest)

/-- `re.search(r"pH\d+_(.*)\.txt", filename)`: leftmost start position;
at a position, `\d+` is the maximal digit run, and the greedy `(.*)`
extends to the last following `.txt`. -/
def searchPHLabel : List Char → Option (List Char)
  | [] => none
  | c :: rest =>
    if c = 'p' then
      match rest with
      | 'H' :: r2 =>
        let d := r2.takeWhile Char.isDigit
        if d.isEmpty then searchPHLabel rest
        else
          match r2.dropWhile Char.isDigit with
          | '_' :: r3 =>
            match (dotTxtSplits [] r3).getLast? with
            | some g => some g
            | none => searchPHLabel rest
          | _ => searchPHLabel rest
      | _ => searchPHLabel rest
    else searchPHLabel rest

/-- The label built by the `pH` branch of `plot_ca.py` (lines 48-54):
`f"{base_label} (pH {ph})"` with `base_label` the stripped group of the
label regex, provided both searches succeed. -/
def phBranchLabel (filename : List Char) : Option String :=
  match searchPHdigits filename, searchPHLabel filename with
  | some d, some g => some ((pyStrip g).asString ++ " (pH " ++ d.asString ++ ")")
  | _, _ => none

/-- `plot_ca.py` lines 46-60: the `pH` substring test comes first; only
when it fails is the `Cu` substring test made. -/
def plotLabel_ca (filename : List Char) : Option String :=
  if containsL "pH".toList filename then phBranchLabel filename
  else if containsL "Cu".toList filename then some "Cu"
  else none

/-! ## `plot_ca.py` : the plotting loop and figure (lines 30-104) -/

/-- `plot_ca.py` line 33. -/
def ca_markers : List Char := ['o', 's', '^', 'D', 'v', 'p', '*', '<', '>', 'X']

/-- `plot_ca.py` line 34. -/
def ca_linestyles : List String := ["-", "--", "-.", ":"]

/-- One curve drawn by `ax.plot` in `plot_ca.py` (line 82). -/
structure Curve where
  label : String
  marker : Char
  linestyle : String
  xs : List ℚ
  ys : List ℚ
  deriving DecidableEq

/-- What one file contributes: `none` when the file is skipped as
unrecognised, when `pd.read_csv` raises (the file system `fs` maps its
path to `none`), when a required column is missing, or when `iloc[0]`
raises on an empty column; otherwise the label and the two plotted
columns. -/
def fileCurveData (fs : String → Option Frame) (dir name : String) :
    Option (String × List ℚ × List ℚ) :=
  match plotLabel_ca name.toList with
  | none => none
  | some lab =>
    match fs (pathJoinS dir name) with
    | none => none
    | some data =>
      if data.cols.contains "Time (s)" && data.cols.contains "WE(1).Charge (C)" then
        if data.timeS.isEmpty then none
        else some (lab, timeMinutes_ca data.timeS, data.charge)
      else none

/-- The body of the file loop of `plot_ca.py` (lines 45-90), acting on the
state (curves so far, `plot_index`, paths passed to `read_csv`). -/
def caStep (fs : String → Option Frame) (dir : String) :
    List Curve × Nat × List String → String → List Curve × Nat × List String :=
  fun st name =>
    match plotLabel_ca name.toList with
    | none => st
    | some lab =>
      let path := pathJoinS dir name
      let rs := st.2.2 ++ [path]
      match fs path with
      | none => (st.1, st.2.1, rs)
      | some data =>
        if data.cols.contains "Time (s)" && data.cols.contains "WE(1).Charge (C)" then
          if data.timeS.isEmpty then (st.1, st.2.1, rs)
          else
            (st.1 ++ [⟨lab, ca_markers.getD (st.2.1 % 10) 'o',
                       ca_linestyles.getD (st.2.1 % 4) "-",
                       timeMinutes_ca data.timeS, data.charge⟩],
             st.2.1 + 1, rs)
        else (st.1, st.2.1, rs)

/-- The observable result of `generate_styled_plot`. -/
structure StyledOutput where
  dirError : Bool
  curves : List Curve
  saved : Bool
  reads : List String
  deriving DecidableEq

/-- `generate_styled_plot` (`plot_ca.py` lines 11-104): `os.listdir`
either raises (`listing = none`: print and return, nothing read, nothing
saved) or yields names in some order; the `.txt` names are sorted, each
is processed by the loop with all per-file failures caught, and the
figure is saved at the end. -/
def generate_styled_plot (fs : String → Option Frame) (dir : String)
    (listing : Option (List String)) : StyledOutput :=
  match listing with
  | none => ⟨true, [], false, []⟩
  | some names =>
    let files := List.insertionSort pyLe (names.filter (fun n => endsWithTxt n.toList))
    let r := files.foldl (caStep fs dir) ([], 0, [])
    ⟨false, r.1, true, r.2.2⟩

/-- Styles assigned to successive successfully plotted curves starting at
`plot_index = k`: the `n`-th gets `markers[(k+n) % 10]` and
`linestyles[(k+n) % 4]`. -/
def styleAssign (k : Nat) : List (String × List ℚ × List ℚ) → List Curve
  | [] => []
  | d :: rest =>
    ⟨d.1, ca_markers.getD (k % 10) 'o', ca_linestyles.getD (k % 4) "-",
     d.2.1, d.2.2⟩ :: styleAssign (k + 1) rest

/-! ## `plot_ca_j.py` : grouping and the subplot figure -/

/-- How `generate_ca_subplots` classifies one filename (lines 39-46):
`Cu` substring first, then `pH` with the digit search. -/
inductive CAJClass
  | cu
  | group (key : String)
  | skip
  deriving DecidableEq, Repr

/-- `plot_ca_j.py` lines 40-46. -/
def cajClassify (name : String) : CAJClass :=
  if containsL "Cu".toList name.toList then .cu
  else if containsL "pH".toList name.toList then
    match searchPHdigits name.toList with
    | some d => .group ("pH " ++ d.asString)
    | none => .skip
  else .skip

/-- The grouping fold state: the current `cu_ref_path` (overwritten by
each `Cu` file) and the `(key, path)` pairs appended to `grouped_files`. -/
def cajGroupStep (dir : String) :
    Option String × List (String × String) → String → Option String × List (String × String) :=
  fun st name =>
    match cajClassify name with
    | .cu => (some (pathJoinS dir name), st.2)
    | .group key => (st.1, st.2 ++ [(key, pathJoinS dir name)])
    | .skip => st

/-- The grouping pass of `generate_ca_subplots` over the sorted `.txt`
names (lines 33-46). -/
def cajScan (dir : String) (names : List String) : Option String × List (String × String) :=
  (List.insertionSort pyLe (names.filter (fun n => endsWithTxt n.toList))).foldl
    (cajGroupStep dir) (none, [])

/-- `grouped_files[key]` : the paths appended under `key`, in order. -/
def groupPaths (gs : List (String × String)) (key : String) : List String :=
  (gs.filter (fun p => p.1 == key)).map Prod.snd

/-- `sorted(grouped_files.keys())`. -/
def cajKeys (dir : String) (names : List String) : List String :=
  List.insertionSort pyLe (((cajScan dir names).2.map Prod.fst).dedup)

/-- How a run of `generate_ca_subplots` ends.  `plt.subplots(n, 1)`
returns a bare `Axes` for `n = 1` (so `axes[i]` raises `TypeError` at the
first loop iteration) and an empty array for `n = 0` (so the final
`axes[-1]` raises `IndexError`); both exceptions are uncaught and happen
before `fig.savefig`. -/
inductive CAJOutcome
  | dirMissing
  | typeErrorSingleAxes
  | indexErrorNoAxes
  | savedFigure (panelKeys : List String)
  deriving DecidableEq, Repr

/-- The observable result of `generate_ca_subplots`: the outcome and the
paths passed to `pd.read_csv`, in order (per panel: the Cu reference when
present, then the panel's grouped files; all read errors are caught). -/
structure CAJOutput where
  outcome : CAJOutcome
  reads : List String
  deriving DecidableEq, Repr

/-- `True` exactly when the run reached `fig.savefig`. -/
def CAJOutput.saved (o : CAJOutput) : Bool :=
  match o.outcome with
  | .savedFigure _ => true
  | _ => false

/-- `generate_ca_subplots` (`plot_ca_j.py` lines 12-111). -/
def generate_ca_subplots (dir : String) (listing : Option (List String)) : CAJOutput :=
  match listing with
  | none => ⟨.dirMissing, []⟩
  | some names =>
    let scan := cajScan dir names
    let keys := cajKeys dir names
    match keys with
    | [] => ⟨.indexErrorNoAxes, []⟩
    | [_] => ⟨.typeErrorSingleAxes, []⟩
    | _ => ⟨.savedFigure keys,
            keys.flatMap (fun k => scan.1.toList ++ groupPaths scan.2 k)⟩

/-! ## C10 : `load_eis_data` in `plot_eis.py` (lines 91-118) -/

/-- An EIS data file as far as merging is concerned: its column names. -/
structure EISFrame where
  cols : List String
  deriving DecidableEq, Repr

/-- The apostrophe character, used in the impedance column names. -/
def apos : Char := Char.ofNat 39

/-- The column name `Z<apostrophe> (Ω)` tested on line 109. -/
def zRealCol : String := String.mk ['Z', apos, ' ', '(', 'Ω', ')']

/-- Columns of `pd.merge(left, right, on=key, how="outer",
suffixes=("", "_y"))`: the key and the left columns keep their names;
right columns other than the key get `_y` appended when they collide
with a left column. -/
def mergeCols (left right : List String) (key : String) : List String :=
  left ++ (right.filter (fun c => c != key)).map
    (fun c => if left.contains c then c ++ "_y" else c)

/-- `s.endswith("_y")` on a column name, by character lists. -/
def endsWithY (s : List Char) : Bool :=
  startsWithL ['_', 'y'] (s.drop (s.length - 2))

/-- `load_eis_data`: one file is read directly; two files are read and
merged on `Frequency (Hz)` with the orientation chosen on line 109 (if
`df2` lacks the Nyquist real-part column, `df1` is the left frame, else
`df2` is), and the `_y` columns are dropped from the merged frame; any
other list length falls through to the final `return None`, and an
exception while reading (`fs f = none`) or merging (the key column
missing in either frame) is caught and yields `None`. -/
def load_eis_data (fs : String → Option EISFrame) (file_list : List String) :
    Option EISFrame :=
  match file_list with
  | [f] => fs f
  | [f1, f2] =>
    match fs f1, fs f2 with
    | some df1, some df2 =>
      if df2.cols.contains zRealCol then
        if df2.cols.contains "Frequency (Hz)" && df1.cols.contains "Frequency (Hz)" then
          some ⟨(mergeCols df2.cols df1.cols "Frequency (Hz)").filter
            (fun c => !(endsWithY c.toList))⟩
        else none
      else
        if df1.cols.contains "Frequency (Hz)" && df2.cols.contains "Frequency (Hz)" then
          some ⟨(mergeCols df1.cols df2.cols "Frequency (Hz)").filter
            (fun c => !(endsWithY c.toList))⟩
        else none
    | _, _ => none
  | _ => none

/-! ## Concrete inputs used to witness the theorems -/

/-- The sorted `.txt` sublist both CA scripts iterate over. -/
def sortTxt (names : List String) : List String :=
  List.insertionSort pyLe (names.filter (fun n => endsWithTxt n.toList))

/-- A well-formed chronoamperometry frame. -/
def wFrame : Frame :=
  ⟨["Time (s)", "WE(1).Charge (C)"], [0, 60, 120], [1, 2, 3], []⟩

/-- A file system where `d/pH4_bad.txt` fails to read and every other
path holds `wFrame`. -/
def wFS : String → Option Frame :=
  fun p => if p = "d/pH4_bad.txt" then none else some wFrame

/-- A file system with two mergeable EIS files `a` (Nyquist) and `b`
(Bode). -/
def wEISfs : String → Option EISFrame :=
  fun p =>
    if p = "a" then some ⟨["Frequency (Hz)", zRealCol, "Z (Ω)"]⟩
    else if p = "b" then some ⟨["Frequency (Hz)", "Z (Ω)", "-Phase (°)"]⟩
    else none

/-! ## Helper lemmas -/

theorem charEq_of_not_lt {a b : Char} (h1 : ¬ a < b) (h2 : ¬ b < a) : a = b :=
  le_antisymm (not_lt.mp h2) (not_lt.mp h1)

theorem charListLe_total : ∀ as bs : List Char,
    charListLe as bs = true ∨ charListLe bs as = true
  | [], _ => Or.inl rfl
  | _ :: _, [] => Or.inr rfl
  | a :: as, b :: bs => by
    by_cases h1 : a < b
    · left
      simp [charListLe, h1]
    · by_cases h2 : b < a
      · right
        simp [charListLe, h2]
      · have hab := charEq_of_not_lt h1 h2
        subst hab
        rcases charListLe_total as bs with h | h
        · left
          simpa [charListLe, lt_self_iff_false] using h
        · right
          simpa [charListLe, lt_self_iff_false] using h

theorem charListLe_trans : ∀ as bs cs : List Char,
    charListLe as bs = true → charListLe bs cs = true → charListLe as cs = true
  | [], _, _, _, _ => rfl
  | _ :: _, [], _, h1, _ => by simp [charListLe] at h1
  | _ :: _, _ :: _, [], _, h2 => by simp [charListLe] at h2
  | a :: as, b :: bs, c :: cs, h1, h2 => by
    by_cases hab : a < b
    · by_cases hbc : b < c
      · have hac := lt_trans hab hbc
        simp [charListLe, hac]
      · by_cases hcb : c < b
        · simp [charListLe, hbc, hcb] at h2
        · have hbc2 := charEq_of_not_lt hbc hcb
          subst hbc2
          simp [charListLe, hab]
    · by_cases hba : b < a
      · simp [charListLe, hab, hba] at h1
      · have hab2 := charEq_of_not_lt hab hba
        subst hab2
        simp only [charListLe, lt_self_iff_false, if_false] at h1
        by_cases hac : a < c
        · simp [charListLe, hac]
        · by_cases hca : c < a
          · simp [charListLe, hac, hca] at h2
          · have hac2 := charEq_of_not_lt hac hca
            subst hac2
            simp only [charListLe, lt_self_iff_false, if_false] at h2 ⊢
            exact charListLe_trans as bs cs h1 h2

theorem charListLe_antisymm : ∀ as bs : List Char,
    charListLe as bs = true → charListLe bs as = true → as = bs
  | [], [], _, _ => rfl
  | [], _ :: _, _, h2 => by simp [charListLe] at h2
  | _ :: _, [], h1, _ => by simp [charListLe] at h1
  | a :: as, b :: bs, h1, h2 => by
    by_cases hab : a < b
    · have hba := lt_asymm hab
      simp [charListLe, hab, hba] at h2
    · by_cases hba : b < a
      · simp [charListLe, hab, hba] at h1
      · have hab2 := charEq_of_not_lt hab hba
        subst hab2
        simp only [charListLe, lt_self_iff_false, if_false] at h1 h2
        rw [charListLe_antisymm as bs h1 h2]

instance : IsTotal String pyLe :=
  ⟨fun a b => charListLe_total a.toList b.toList⟩

instance : IsTrans String pyLe :=
  ⟨fun a b c => charListLe_trans a.toList b.toList c.toList⟩

instance : IsAntisymm String pyLe :=
  ⟨fun a b h1 h2 => String.toList_inj.mp (charListLe_antisymm a.toList b.toList h1 h2)⟩

theorem kreCase_none_of (fn : List Char)
    (h : ¬(containsL "KReO4 + Na2SO4".toList fn = true ∧ (searchCond fn).isSome = true)) :
    kreCase fn = none := by
  unfold kreCase
  by_cases h2 : containsL "KReO4 + Na2SO4".toList fn = true
  · cases hsc : searchCond fn with
    | none =>
      rw [if_pos h2]
    | some c => exact absurd ⟨h2, by simp [hsc]⟩ h
  · exact if_neg h2

theorem getD_map_zero (f : ℚ → ℚ) (hf : f 0 = 0) :
    ∀ (l : List ℚ) (i : Nat), (l.map f).getD i 0 = f (l.getD i 0)
  | [], i => by simp [hf]
  | x :: xs, 0 => by simp
  | _ :: xs, i + 1 => by simpa using getD_map_zero f hf xs i

theorem getD_map_lt (f : ℚ → ℚ) :
    ∀ (l : List ℚ) (i : Nat), i < l.length → (l.map f).getD i 0 = f (l.getD i 0)
  | [], i, h => absurd h (by simp)
  | x :: xs, 0, _ => by simp
  | _ :: xs, i + 1, h => by simpa using getD_map_lt f xs i (by simpa using h)

theorem timeMinutes_ca_eq_map (ts : List ℚ) :
    timeMinutes_ca ts = ts.map (fun t => (t - ts.headD 0) / 60) := by
  unfold timeMinutes_ca
  rw [List.map_map]
  rfl

/-! ## The claims -/

/-- C1: for every EIS filename on which the main pattern matches with
groups `m`, `parse_filename` returns the record whose `chemical` is the
stripped chemical group, whose `ph` is the pH group when it participates
and `N/A` otherwise, and whose `condition` is the condition group; and
for every filename matching none of the three recognised forms (main
pattern, `Cu` special case, `KReO4 + Na2SO4` special case),
`parse_filename` returns `none`. -/
theorem C1_parse_filename (f : String) :
    (∀ m : EISMatch, patternMatch (basename f.toList) = some m →
      parse_filename f = some
        { id := m.idx ++ "_" ++ m.chem ++ " " ++
            (match m.ph with | some p => p | none => "None") ++ " " ++ m.cond,
          chemical := (pyStrip m.chem.toList).asString,
          ph := match m.ph with | some p => p | none => "N/A",
          condition := m.cond }) ∧
    (patternMatch (basename f.toList) = none →
      ¬(containsL "Cu".toList (basename f.toList) = true ∧
        (searchCond (basename f.toList)).isSome = true) →
      ¬(containsL "KReO4 + Na2SO4".toList (basename f.toList) = true ∧
        (searchCond (basename f.toList)).isSome = true) →
      parse_filename f = none) := by
  constructor
  · intro m hm
    simp only [parse_filename]
    rw [hm]
  · intro hm hcu hkre
    simp only [parse_filename]
    rw [hm]
    by_cases h1 : containsL "Cu".toList (basename f.toList) = true
    · have hsc : searchCond (basename f.toList) = none := by
        cases hsc : searchCond (basename f.toList) with
        | none => rfl
        | some c => exact absurd ⟨h1, by rw [hsc]; rfl⟩ hcu
      rw [if_pos h1, hsc]
      exact kreCase_none_of _ hkre
    · rw [if_neg h1]
      exact kreCase_none_of _ hkre

/-- Witness for C1 at two concrete filenames. -/
theorem C1_parse_filename_witness :
    parse_filename "1_KReO4 pH 4 OCP (Nyquist).txt" =
      some { id := "1_KReO4 pH 4 OCP", chemical := "KReO4",
             ph := "pH 4", condition := "OCP" } ∧
    parse_filename "unrelated.txt" = none := by
  constructor
  · have h := (C1_parse_filename "1_KReO4 pH 4 OCP (Nyquist).txt").1
      ⟨"1", "KReO4", some "pH 4", "OCP", "Nyquist"⟩ (by decide)
    simpa using h
  · exact (C1_parse_filename "unrelated.txt").2 (by decide) (by decide) (by decide)

/-- C2: for a non-empty time column, both CA scripts shift the series to
start at its own first value and divide by 60; the first plotted time is
0 and pairwise differences are preserved up to the 1/60 scaling. -/
theorem C2_time_normalisation (ts : List ℚ) (h : ts ≠ []) :
    (timeMinutes_ca ts).headD 0 = 0 ∧
    (timeMinutes_caj ts).headD 0 = 0 ∧
    timeMinutes_ca ts = timeMinutes_caj ts ∧
    ∀ i j : Nat, i < ts.length → j < ts.length →
      (timeMinutes_ca ts).getD i 0 - (timeMinutes_ca ts).getD j 0 =
        (ts.getD i 0 - ts.getD j 0) / 60 := by
  obtain ⟨t0, tl, rfl⟩ := List.exists_cons_of_ne_nil h
  refine ⟨by simp [timeMinutes_ca], by simp [timeMinutes_caj], ?_, ?_⟩
  · rw [timeMinutes_ca_eq_map]
    rfl
  · intro i j hi hj
    rw [timeMinutes_ca_eq_map, getD_map_lt _ _ i (by simpa using hi),
      getD_map_lt _ _ j (by simpa using hj),
      div_sub_div_same, sub_sub_sub_cancel_right]

/-- Witness for C2 at the concrete column `[120, 180, 300]`. -/
theorem C2_time_normalisation_witness :
    (timeMinutes_ca [(120 : ℚ), 180, 300]).headD 0 = 0 ∧
    (timeMinutes_ca [(120 : ℚ), 180, 300]).getD 2 0 -
      (timeMinutes_ca [(120 : ℚ), 180, 300]).getD 0 0 = (300 - 120) / 60 := by
  have h := C2_time_normalisation [(120 : ℚ), 180, 300] (by simp)
  refine ⟨h.1, ?_⟩
  have h2 := h.2.2.2 2 0 (by simp) (by simp)
  simpa using h2

/-- C3: in `plot_ca_j.py` (sample and Cu-reference curves) and in
`plot_lsv.py` (sample and Cu-reference curves), every row of the plotted
current-density column equals `1000 * I / ELECTRODE_AREA_CM2` where `I`
is the working-electrode current of that row. -/
theorem C3_current_density (c : List ℚ) (i : Nat) :
    (plot_ca_j.jColumn c).getD i 0 =
      1000 * c.getD i 0 / plot_ca_j.ELECTRODE_AREA_CM2 ∧
    (plot_ca_j.jColumn_ref c).getD i 0 =
      1000 * c.getD i 0 / plot_ca_j.ELECTRODE_AREA_CM2 ∧
    (plot_lsv.jColumn c).getD i 0 =
      1000 * c.getD i 0 / plot_lsv.ELECTRODE_AREA_CM2 ∧
    (plot_lsv.jColumn_ref c).getD i 0 =
      1000 * c.getD i 0 / plot_lsv.ELECTRODE_AREA_CM2 := by
  refine ⟨?_, ?_, ?_, ?_⟩ <;>
    simp only [plot_ca_j.jColumn, plot_ca_j.jColumn_ref,
      plot_lsv.jColumn, plot_lsv.jColumn_ref] <;>
    rw [getD_map_zero _ (by simp)] <;> ring

/-- C4: every `read_csv` call of the CA and LSV scripts passes the tab
delimiter and every `read_csv` call of the EIS script passes the
semicolon delimiter. -/
theorem C4_delimiters :
    ∀ c ∈ readCalls, c.sep = if c.script = Script.eis then ";" else "\t" := by
  decide

/-- Witness for C4 at two concrete call sites. -/
theorem C4_delimiters_witness :
    (⟨Script.ca, 64, "\t"⟩ : ReadCall).sep = "\t" ∧
    (⟨Script.eis, 101, ";"⟩ : ReadCall).sep = ";" :=
  ⟨C4_delimiters ⟨Script.ca, 64, "\t"⟩ (by decide),
   C4_delimiters ⟨Script.eis, 101, ";"⟩ (by decide)⟩

/-! ## `plot_ca.py` loop characterisation -/

theorem caStep_eq (fs : String → Option Frame) (dir : String)
    (cs : List Curve) (k : Nat) (rs : List String) (name : String) :
    caStep fs dir (cs, k, rs) name =
      (cs ++ styleAssign k (fileCurveData fs dir name).toList,
       k + (fileCurveData fs dir name).toList.length,
       rs ++ (if (plotLabel_ca name.toList).isSome then [pathJoinS dir name] else [])) := by
  unfold caStep fileCurveData
  cases h1 : plotLabel_ca name.toList with
  | none => simp [h1, styleAssign]
  | some lab =>
    cases h2 : fs (pathJoinS dir name) with
    | none => simp [h1, h2, styleAssign]
    | some data =>
      by_cases h3 : ("Time (s)" ∈ data.cols ∧ "WE(1).Charge (C)" ∈ data.cols)
      · by_cases h4 : data.timeS = []
        · simp [h1, h2, h3, h4, styleAssign]
        · simp [h1, h2, h3, h4, styleAssign]
      · simp [h1, h2, h3, styleAssign]

theorem styleAssign_append (a b : List (String × List ℚ × List ℚ)) :
    ∀ k : Nat, styleAssign k (a ++ b) = styleAssign k a ++ styleAssign (k + a.length) b := by
  induction a with
  | nil => intro k; simp [styleAssign]
  | cons x xs ih =>
    intro k
    simp only [List.cons_append, styleAssign, List.length_cons]
    have hk : k + (xs.length + 1) = k + 1 + xs.length := by omega
    rw [hk]
    exact congrArg _ (ih (k + 1))

theorem caStep_foldl (fs : String → Option Frame) (dir : String) (l : List String) :
    ∀ (cs : List Curve) (k : Nat) (rs : List String),
    l.foldl (caStep fs dir) (cs, k, rs) =
      (cs ++ styleAssign k (l.filterMap (fileCurveData fs dir)),
       k + (l.filterMap (fileCurveData fs dir)).length,
       rs ++ l.filterMap (fun n =>
         if (plotLabel_ca n.toList).isSome then some (pathJoinS dir n) else none)) := by
  induction l with
  | nil => intro cs k rs; simp [styleAssign]
  | cons x xs ih =>
    intro cs k rs
    rw [List.foldl_cons, caStep_eq, ih]
    cases hx : fileCurveData fs dir x with
    | none =>
      by_cases hl : (plotLabel_ca x.toList).isSome = true <;>
        simp only [String.toList] at hl <;>
        simp [List.filterMap_cons, hx, hl, styleAssign]
    | some d =>
      by_cases hl : (plotLabel_ca x.toList).isSome = true <;>
        simp only [String.toList] at hl <;>
        simp [List.filterMap_cons, hx, hl, styleAssign, styleAssign_append,
          Nat.add_assoc, Nat.add_comm 1]

theorem generate_styled_plot_eq (fs : String → Option Frame) (dir : String)
    (names : List String) :
    generate_styled_plot fs dir (some names) =
      ⟨false,
       styleAssign 0 ((sortTxt names).filterMap (fileCurveData fs dir)),
       true,
       (sortTxt names).filterMap (fun n =>
         if (plotLabel_ca n.toList).isSome then some (pathJoinS dir n) else none)⟩ := by
  simp only [generate_styled_plot, sortTxt]
  rw [caStep_foldl]
  simp

theorem insertionSort_filter (p : String → Bool) (l : List String) :
    (List.insertionSort pyLe l).filter p = List.insertionSort pyLe (l.filter p) :=
  @List.eq_of_perm_of_sorted String pyLe inferInstance _ _
    (((List.perm_insertionSort _ l).filter p).trans
      (List.perm_insertionSort _ (l.filter p)).symm)
    ((List.sorted_insertionSort _ l).filter p)
    (List.sorted_insertionSort _ _)

theorem filterMap_filter_bne {β : Type} (f : String → Option β) (a : String)
    (hf : f a = none) :
    ∀ l : List String, l.filterMap f = (l.filter (fun x => x != a)).filterMap f := by
  intro l
  induction l with
  | nil => rfl
  | cons x xs ih =>
    by_cases hx : x = a
    · subst hx
      simp [List.filterMap_cons, hf, List.filter_cons, ih]
    · simp [List.filterMap_cons, List.filter_cons, hx, ih]

/-- C5: in `generate_styled_plot`, a file whose processing fails (read
exception, missing required columns, or empty time column) contributes
nothing: the curves drawn are exactly those of the same directory without
that file, and the figure is still saved in both runs. -/
theorem C5_error_isolation (fs : String → Option Frame) (dir name : String)
    (l₁ l₂ : List String) (h : fileCurveData fs dir name = none) :
    (generate_styled_plot fs dir (some (l₁ ++ name :: l₂))).curves =
      (generate_styled_plot fs dir (some (l₁ ++ l₂))).curves ∧
    (generate_styled_plot fs dir (some (l₁ ++ name :: l₂))).saved = true ∧
    (generate_styled_plot fs dir (some (l₁ ++ l₂))).saved = true := by
  have key : (sortTxt (l₁ ++ name :: l₂)).filterMap (fileCurveData fs dir) =
      (sortTxt (l₁ ++ l₂)).filterMap (fileCurveData fs dir) := by
    rw [filterMap_filter_bne _ name h (sortTxt (l₁ ++ name :: l₂)),
      filterMap_filter_bne _ name h (sortTxt (l₁ ++ l₂))]
    congr 1
    unfold sortTxt
    rw [insertionSort_filter, insertionSort_filter, List.filter_filter,
      List.filter_filter]
    congr 1
    simp [List.filter_append, List.filter_cons]
  rw [generate_styled_plot_eq, generate_styled_plot_eq]
  exact ⟨by rw [key], rfl, rfl⟩

/-- C6: when the input directory cannot be listed, `generate_styled_plot`
and `generate_ca_subplots` print the error and return: no file is read,
no curve is produced, and no figure is saved. -/
theorem C6_missing_directory (fs : String → Option Frame) (dir : String) :
    generate_styled_plot fs dir none =
      { dirError := true, curves := [], saved := false, reads := [] } ∧
    generate_ca_subplots dir none = { outcome := .dirMissing, reads := [] } :=
  ⟨rfl, rfl⟩

theorem styleAssign_getElem? :
    ∀ (L : List (String × List ℚ × List ℚ)) (k n : Nat),
      (styleAssign k L)[n]? = L[n]?.map (fun d =>
        ⟨d.1, ca_markers.getD ((k + n) % 10) 'o',
         ca_linestyles.getD ((k + n) % 4) "-", d.2.1, d.2.2⟩) := by
  intro L
  induction L with
  | nil => intro k n; simp [styleAssign]
  | cons x xs ih =>
    intro k n
    cases n with
    | zero => simp [styleAssign]
    | succ n =>
      simp only [styleAssign, List.getElem?_cons_succ]
      rw [ih (k + 1) n]
      have hk : k + 1 + n = k + (n + 1) := by omega
      rw [hk]

/-- C7: `generate_styled_plot` depends only on the set of names returned
by the directory enumeration (it sorts them), so two enumerations that
are permutations of each other give identical output; and the `n`-th
successfully plotted curve carries marker `n % 10` and linestyle
`n % 4` from the style lists. -/
theorem C7_order_determinism (fs : String → Option Frame) (dir : String)
    (names₁ names₂ : List String) (hp : names₁.Perm names₂) :
    generate_styled_plot fs dir (some names₁) =
      generate_styled_plot fs dir (some names₂) ∧
    ∀ (n : Nat) (c : Curve),
      (generate_styled_plot fs dir (some names₁)).curves[n]? = some c →
      c.marker = ca_markers.getD (n % 10) 'o' ∧
      c.linestyle = ca_linestyles.getD (n % 4) "-" := by
  have hsort : sortTxt names₁ = sortTxt names₂ :=
    @List.eq_of_perm_of_sorted String pyLe inferInstance _ _
      (((List.perm_insertionSort _ _).trans (hp.filter _)).trans
        (List.perm_insertionSort _ _).symm)
      (List.sorted_insertionSort _ _)
      (List.sorted_insertionSort _ _)
  constructor
  · rw [generate_styled_plot_eq, generate_styled_plot_eq, hsort]
  · intro n c hc
    rw [generate_styled_plot_eq] at hc
    simp only [styleAssign_getElem?, Nat.zero_add, Option.map_eq_some'] at hc
    obtain ⟨d, hd, h2⟩ := hc
    rw [← h2]
    exact ⟨rfl, rfl⟩

/-- Witness for C5 at a concrete directory with one failing file. -/
theorem C5_error_isolation_witness :
    (generate_styled_plot wFS "d" (some ["pH4_bad.txt", "pH4_a.txt"])).curves =
      (generate_styled_plot wFS "d" (some ["pH4_a.txt"])).curves ∧
    (generate_styled_plot wFS "d" (some ["pH4_bad.txt", "pH4_a.txt"])).saved = true ∧
    (generate_styled_plot wFS "d" (some ["pH4_a.txt"])).saved = true :=
  C5_error_isolation wFS "d" "pH4_bad.txt" [] ["pH4_a.txt"] (by decide)

/-- Witness for C7: a transposed enumeration gives identical output, and
the first plotted curve carries marker `0 % 10` and linestyle `0 % 4`. -/
theorem C7_order_determinism_witness :
    generate_styled_plot wFS "d" (some ["pH4_b.txt", "pH4_a.txt"]) =
      generate_styled_plot wFS "d" (some ["pH4_a.txt", "pH4_b.txt"]) ∧
    (⟨"a (pH 4)", 'o', "-", [0, 1, 2], [1, 2, 3]⟩ : Curve).marker =
      ca_markers.getD (0 % 10) 'o' ∧
    (⟨"a (pH 4)", 'o', "-", [0, 1, 2], [1, 2, 3]⟩ : Curve).linestyle =
      ca_linestyles.getD (0 % 4) "-" := by
  have hts : timeMinutes_ca [(0 : ℚ), 60, 120] = [0, 1, 2] := by
    norm_num [timeMinutes_ca]
  have h1 : sortTxt ["pH4_b.txt", "pH4_a.txt"] = ["pH4_a.txt", "pH4_b.txt"] := by
    decide
  have h2 : fileCurveData wFS "d" "pH4_a.txt" =
      some ("a (pH 4)", timeMinutes_ca [(0 : ℚ), 60, 120], [1, 2, 3]) := by
    rfl
  have h3 : fileCurveData wFS "d" "pH4_b.txt" =
      some ("b (pH 4)", timeMinutes_ca [(0 : ℚ), 60, 120], [1, 2, 3]) := by
    rfl
  have hc : (generate_styled_plot wFS "d"
      (some ["pH4_b.txt", "pH4_a.txt"])).curves[0]? =
      some ⟨"a (pH 4)", 'o', "-", [0, 1, 2], [1, 2, 3]⟩ := by
    rw [generate_styled_plot_eq]
    show (styleAssign 0 _)[0]? = _
    rw [h1, List.filterMap_cons, h2, List.filterMap_cons, h3, List.filterMap_nil]
    simp [styleAssign, hts, ca_markers, ca_linestyles]
  have h := C7_order_determinism wFS "d" ["pH4_b.txt", "pH4_a.txt"]
    ["pH4_a.txt", "pH4_b.txt"] (by decide)
  exact ⟨h.1, h.2 0 ⟨"a (pH 4)", 'o', "-", [0, 1, 2], [1, 2, 3]⟩ hc⟩

/-! ## `plot_ca_j.py` grouping characterisation -/

theorem cajClassify_cu (n : String) (h : containsL "Cu".toList n.toList = true) :
    cajClassify n = CAJClass.cu := by
  unfold cajClassify
  rw [if_pos h]

theorem cajClassify_ne_cu (n : String) (h : ¬ containsL "Cu".toList n.toList = true) :
    cajClassify n ≠ CAJClass.cu := by
  unfold cajClassify
  rw [if_neg h]
  by_cases h2 : containsL "pH".toList n.toList = true
  · rw [if_pos h2]
    cases searchPHdigits n.toList <;> simp
  · rw [if_neg h2]
    simp

theorem cajScan_foldl (dir : String) :
    ∀ (l : List String) (cu : Option String) (gs : List (String × String)),
    l.foldl (cajGroupStep dir) (cu, gs) =
      ((match (l.filter (fun n => containsL "Cu".toList n.toList)).getLast? with
        | some n => some (pathJoinS dir n)
        | none => cu),
       gs ++ l.filterMap (fun n =>
         match cajClassify n with
         | CAJClass.group k => some (k, pathJoinS dir n)
         | _ => none))
  | [], cu, gs => by simp
  | x :: xs, cu, gs => by
    rw [List.foldl_cons]
    cases hx : cajClassify x with
    | cu =>
      have hcu : containsL "Cu".toList x.toList = true := by
        by_contra hc
        exact cajClassify_ne_cu x hc hx
      have hstep : cajGroupStep dir (cu, gs) x = (some (pathJoinS dir x), gs) := by
        unfold cajGroupStep
        rw [hx]
      rw [hstep, cajScan_foldl dir xs]
      simp only [List.filter_cons, hcu, if_true, List.getLast?_cons,
        List.filterMap_cons, hx]
      cases hlast : (xs.filter (fun n => containsL "Cu".toList n.toList)).getLast? <;>
        simp [hlast]
    | group k =>
      have hcu : ¬ containsL "Cu".toList x.toList = true := by
        intro hc
        rw [cajClassify_cu x hc] at hx
        exact CAJClass.noConfusion hx
      have hstep : cajGroupStep dir (cu, gs) x =
          (cu, gs ++ [(k, pathJoinS dir x)]) := by
        unfold cajGroupStep
        rw [hx]
      rw [hstep, cajScan_foldl dir xs]
      have hcu2 : containsL "Cu".toList x.toList = false := by
        cases hb : containsL "Cu".toList x.toList
        · rfl
        · exact absurd hb hcu
      simp only [List.filter_cons, hcu2, List.filterMap_cons, hx]
      simp
    | skip =>
      have hcu : ¬ containsL "Cu".toList x.toList = true := by
        intro hc
        rw [cajClassify_cu x hc] at hx
        exact CAJClass.noConfusion hx
      have hstep : cajGroupStep dir (cu, gs) x = (cu, gs) := by
        unfold cajGroupStep
        rw [hx]
      rw [hstep, cajScan_foldl dir xs]
      have hcu2 : containsL "Cu".toList x.toList = false := by
        cases hb : containsL "Cu".toList x.toList
        · rfl
        · exact absurd hb hcu
      simp only [List.filter_cons, hcu2, List.filterMap_cons, hx]
      simp

/-- C8: in `generate_ca_subplots` every filename containing `Cu` becomes
the reference (the lexicographically last one wins) and is never grouped
under a pH key, even when it carries a pH tag; `plot_ca.py` tests the
substrings in the opposite order, handling `pH` names by the pH branch. -/
theorem C8_cu_before_ph (dir : String) (names : List String) :
    ((cajScan dir names).1 =
      (((sortTxt names).filter
        (fun n => containsL "Cu".toList n.toList)).getLast?).map (pathJoinS dir)) ∧
    ((cajScan dir names).2 = (sortTxt names).filterMap (fun n =>
        match cajClassify n with
        | CAJClass.group k => some (k, pathJoinS dir n)
        | _ => none)) ∧
    (∀ kp ∈ (cajScan dir names).2, ∃ n, cajClassify n = CAJClass.group kp.1 ∧
        kp.2 = pathJoinS dir n ∧ containsL "Cu".toList n.toList = false) ∧
    (∀ n : String, containsL "Cu".toList n.toList = true →
      cajClassify n = CAJClass.cu) ∧
    (∀ n : String, containsL "pH".toList n.toList = true →
      plotLabel_ca n.toList = phBranchLabel n.toList) := by
  have hscan : cajScan dir names =
      ((match ((sortTxt names).filter
          (fun n => containsL "Cu".toList n.toList)).getLast? with
        | some n => some (pathJoinS dir n)
        | none => none),
       (sortTxt names).filterMap (fun n =>
         match cajClassify n with
         | CAJClass.group k => some (k, pathJoinS dir n)
         | _ => none)) := by
    unfold cajScan
    rw [cajScan_foldl]
    rfl
  refine ⟨?_, ?_, ?_, cajClassify_cu, ?_⟩
  · rw [hscan]
    cases ((sortTxt names).filter
        (fun n => containsL "Cu".toList n.toList)).getLast? <;> rfl
  · rw [hscan]
  · intro kp hkp
    rw [hscan] at hkp
    simp only [List.mem_filterMap] at hkp
    obtain ⟨n, _, hn⟩ := hkp
    cases hcls : cajClassify n with
    | cu => rw [hcls] at hn; exact absurd hn (by simp)
    | skip => rw [hcls] at hn; exact absurd hn (by simp)
    | group k =>
      rw [hcls] at hn
      have hk : (k, pathJoinS dir n) = kp := by simpa using hn
      refine ⟨n, ?_, ?_, ?_⟩
      · rw [← hk, hcls]
      · rw [← hk]
      · by_contra hc
        have hc2 : containsL "Cu".toList n.toList = true := by
          cases hb : containsL "Cu".toList n.toList
          · exact absurd hb hc
          · rfl
        rw [cajClassify_cu n hc2] at hcls
        exact CAJClass.noConfusion hcls
  · intro n h
    unfold plotLabel_ca
    rw [if_pos h]

/-- Witness for C8 at a directory where a file carries both `pH` and
`Cu`. -/
theorem C8_cu_before_ph_witness :
    (cajScan "d" ["pH4_Cu.txt", "Cu2.txt", "pH4_a.txt"]).1 = some "d/pH4_Cu.txt" ∧
    cajClassify "pH4_Cu.txt" = CAJClass.cu ∧
    plotLabel_ca "pH4_Cu.txt".toList = phBranchLabel "pH4_Cu.txt".toList := by
  refine ⟨?_,
    (C8_cu_before_ph "d" ["pH4_Cu.txt", "Cu2.txt", "pH4_a.txt"]).2.2.2.1
      "pH4_Cu.txt" (by decide),
    (C8_cu_before_ph "d" ["pH4_Cu.txt", "Cu2.txt", "pH4_a.txt"]).2.2.2.2
      "pH4_Cu.txt" (by decide)⟩
  rw [(C8_cu_before_ph "d" ["pH4_Cu.txt", "Cu2.txt", "pH4_a.txt"]).1]
  decide

/-- C9: `generate_ca_subplots` reaches `fig.savefig` exactly when the
scan yields at least two distinct pH groups; with exactly one group the
single-`Axes` subscript raises, with zero groups the empty-axes access
raises, and in both cases nothing is saved. -/
theorem C9_subplot_arity (dir : String) (names : List String) :
    ((generate_ca_subplots dir (some names)).saved = true ↔
      2 ≤ (cajKeys dir names).length) ∧
    ((cajKeys dir names).length = 1 →
      (generate_ca_subplots dir (some names)).outcome =
        CAJOutcome.typeErrorSingleAxes) ∧
    ((cajKeys dir names).length = 0 →
      (generate_ca_subplots dir (some names)).outcome =
        CAJOutcome.indexErrorNoAxes) := by
  cases hk : cajKeys dir names with
  | nil => simp [generate_ca_subplots, hk, CAJOutput.saved]
  | cons k1 rest =>
    cases rest with
    | nil => simp [generate_ca_subplots, hk, CAJOutput.saved]
    | cons k2 r2 =>
      simp [generate_ca_subplots, hk, CAJOutput.saved]

/-- Witness for C9 at directories with one, zero and two pH groups. -/
theorem C9_subplot_arity_witness :
    (generate_ca_subplots "d" (some ["pH1_a.txt"])).outcome =
      CAJOutcome.typeErrorSingleAxes ∧
    (generate_ca_subplots "d" (some [])).outcome =
      CAJOutcome.indexErrorNoAxes ∧
    (generate_ca_subplots "d" (some ["pH1_a.txt", "pH2_b.txt"])).saved = true :=
  ⟨(C9_subplot_arity "d" ["pH1_a.txt"]).2.1 (by decide),
   (C9_subplot_arity "d" []).2.2 (by decide),
   ((C9_subplot_arity "d" ["pH1_a.txt", "pH2_b.txt"]).1).mpr (by decide)⟩

/-- C10: `load_eis_data` returns `None` for every list whose length is
neither 1 nor 2, for every one-file or two-file list on which a read
raises, and for every two-file list on which the merge raises because
the frequency key is missing; a successfully merged two-file frame has
no column ending in `_y`. -/
theorem C10_load_eis (fs : String → Option EISFrame) :
    (∀ fl : List String, fl.length ≠ 1 → fl.length ≠ 2 →
      load_eis_data fs fl = none) ∧
    (∀ f : String, fs f = none → load_eis_data fs [f] = none) ∧
    (∀ f1 f2 : String, fs f1 = none ∨ fs f2 = none →
      load_eis_data fs [f1, f2] = none) ∧
    (∀ f1 f2 df1 df2, fs f1 = some df1 → fs f2 = some df2 →
      ¬(df1.cols.contains "Frequency (Hz)" = true ∧
        df2.cols.contains "Frequency (Hz)" = true) →
      load_eis_data fs [f1, f2] = none) ∧
    (∀ f1 f2 df, load_eis_data fs [f1, f2] = some df →
      ∀ c ∈ df.cols, endsWithY c.toList = false) := by
  refine ⟨?_, ?_, ?_, ?_, ?_⟩
  · intro fl h1 h2
    match fl with
    | [] => rfl
    | [f] => exact absurd rfl h1
    | [f1, f2] => exact absurd rfl h2
    | f1 :: f2 :: f3 :: r => rfl
  · intro f h
    exact h
  · intro f1 f2 h
    simp only [load_eis_data]
    rcases h with h | h
    · rw [h]
    · rw [h]
      cases fs f1 <;> rfl
  · intro f1 f2 df1 df2 hf1 hf2 hfreq
    have hg1 : ¬((df2.cols.contains "Frequency (Hz)" &&
        df1.cols.contains "Frequency (Hz)") = true) := by
      intro hb
      rw [Bool.and_eq_true] at hb
      exact hfreq ⟨hb.2, hb.1⟩
    have hg2 : ¬((df1.cols.contains "Frequency (Hz)" &&
        df2.cols.contains "Frequency (Hz)") = true) := by
      intro hb
      rw [Bool.and_eq_true] at hb
      exact hfreq ⟨hb.1, hb.2⟩
    simp only [load_eis_data]
    rw [hf1, hf2]
    show (if df2.cols.contains zRealCol = true then
        (if (df2.cols.contains "Frequency (Hz)" &&
            df1.cols.contains "Frequency (Hz)") = true then
          some (⟨(mergeCols df2.cols df1.cols "Frequency (Hz)").filter
            (fun cc => !(endsWithY cc.toList))⟩ : EISFrame)
        else none)
      else
        (if (df1.cols.contains "Frequency (Hz)" &&
            df2.cols.contains "Frequency (Hz)") = true then
          some (⟨(mergeCols df1.cols df2.cols "Frequency (Hz)").filter
            (fun cc => !(endsWithY cc.toList))⟩ : EISFrame)
        else none)) = none
    by_cases hz : df2.cols.contains zRealCol = true
    · rw [if_pos hz, if_neg hg1]
    · rw [if_neg hz, if_neg hg2]
  · intro f1 f2 df hload c hc
    simp only [load_eis_data] at hload
    cases hf1 : fs f1 with
    | none =>
      rw [hf1] at hload
      exact absurd hload (by simp)
    | some df1 =>
      rw [hf1] at hload
      cases hf2 : fs f2 with
      | none =>
        rw [hf2] at hload
        exact absurd hload (by simp)
      | some df2 =>
        rw [hf2] at hload
        have hload2 : (if df2.cols.contains zRealCol = true then
            (if (df2.cols.contains "Frequency (Hz)" &&
                df1.cols.contains "Frequency (Hz)") = true then
              some (⟨(mergeCols df2.cols df1.cols "Frequency (Hz)").filter
                (fun cc => !(endsWithY cc.toList))⟩ : EISFrame)
            else none)
          else
            (if (df1.cols.contains "Frequency (Hz)" &&
                df2.cols.contains "Frequency (Hz)") = true then
              some (⟨(mergeCols df1.cols df2.cols "Frequency (Hz)").filter
                (fun cc => !(endsWithY cc.toList))⟩ : EISFrame)
            else none)) = some df := hload
        by_cases hz : df2.cols.contains zRealCol = true
        · rw [if_pos hz] at hload2
          by_cases hg : (df2.cols.contains "Frequency (Hz)" &&
              df1.cols.contains "Frequency (Hz)") = true
          · rw [if_pos hg] at hload2
            have hdf := Option.some.inj hload2
            rw [← hdf] at hc
            simpa using (List.mem_filter.mp hc).2
          · rw [if_neg hg] at hload2
            exact absurd hload2 (by simp)
        · rw [if_neg hz] at hload2
          by_cases hg : (df1.cols.contains "Frequency (Hz)" &&
              df2.cols.contains "Frequency (Hz)") = true
          · rw [if_pos hg] at hload2
            have hdf := Option.some.inj hload2
            rw [← hdf] at hc
            simpa using (List.mem_filter.mp hc).2
          · rw [if_neg hg] at hload2
            exact absurd hload2 (by simp)

/-- Witness for C10 at a concrete pair of mergeable EIS frames and at
failing inputs, including a one-file list whose read raises. -/
theorem C10_load_eis_witness :
    load_eis_data wEISfs ["a", "b", "c"] = none ∧
    load_eis_data wEISfs ["x"] = none ∧
    load_eis_data wEISfs ["x", "b"] = none ∧
    load_eis_data wEISfs ["a", "b"] =
      some ⟨["Frequency (Hz)", zRealCol, "Z (Ω)", "-Phase (°)"]⟩ ∧
    endsWithY "-Phase (°)".toList = false := by
  have hload : load_eis_data wEISfs ["a", "b"] =
      some ⟨["Frequency (Hz)", zRealCol, "Z (Ω)", "-Phase (°)"]⟩ := by decide
  exact ⟨(C10_load_eis wEISfs).1 ["a", "b", "c"] (by decide) (by decide),
    (C10_load_eis wEISfs).2.1 "x" (by decide),
    (C10_load_eis wEISfs).2.2.1 "x" "b" (Or.inl (by decide)),
    hload,
    (C10_load_eis wEISfs).2.2.2.2 "a" "b" _ hload "-Phase (°)" (by decide)⟩

end PlotElectroChem
